import Mathlib

/-!
Shallow embedding of the FindOrigin source-discovery pipeline: the search client
(`src/lib/search/google.ts` and its multi-query variant), the relevance scorer and
ranking (`src/lib/ai/openai.ts`), and the input normalizer
(`src/lib/text/extractor.ts`).  Remote providers are modelled as explicit outcome
parameters; JavaScript numbers on the scoring path are modelled as integers.
-/

namespace FindOrigin

/-- Search result record produced by the search client (`SearchResult` in
`src/lib/search/google.ts`). -/
structure SearchResult where
  title : String
  link : String
  snippet : String
  displayLink : String
deriving DecidableEq

/-- Scored result record (`ScoredResult` in `src/lib/ai/openai.ts`): a
`SearchResult` extended with a confidence and an explanation. -/
structure ScoredResult extends SearchResult where
  confidence : Int
  explanation : String
deriving DecidableEq

/-- One entry of the parsed `analysis.results` array inside `analyzeRelevance`
(`src/lib/ai/openai.ts`).  The provider is asked for an index, a confidence and an
explanation per candidate; the confidence and explanation fields may be absent
from the actual JSON, which the `||` fallbacks in the source account for. -/
structure AnalysisItem where
  index : Int
  confidence : Option Int
  explanation : Option String
deriving DecidableEq

/-- Outcome of the single scoring-provider call inside `analyzeRelevance`:
`Except.error` models the awaited call throwing (network failure, missing
`content`, malformed JSON), `Except.ok resp` models a parsed JSON object whose
optional `results` field is `resp`. -/
abbrev ScoreProviderOutcome := Except Unit (Option (List AnalysisItem))

/-- JavaScript `x || d` for an optional number `x`: absence and `0` fall back to
`d` (both are falsy). -/
def jsNumOr (x : Option Int) (d : Int) : Int :=
  match x with
  | some v => if v = 0 then d else v
  | none => d

/-- JavaScript `x || d` for an optional string `x`: absence and the empty string
fall back to `d` (both are falsy). -/
def jsStrOr (x : Option String) (d : String) : String :=
  match x with
  | some v => if v = "" then d else v
  | none => d

/-- The lookup `analysis.results?.find((r) => r.index === index + 1)` in
`analyzeRelevance`: the first response item whose `index` equals `idx`, where a
missing `results` field behaves as an empty array. -/
def findAnalysisItem (resp : Option (List AnalysisItem)) (idx : Int) : Option AnalysisItem :=
  (resp.getD []).find? (fun r => r.index == idx)

/-- Body of the `resultsToAnalyze.map((result, index) => ...)` in
`analyzeRelevance`, for the candidate `result` at 0-based position `pos`:
`confidence: analysisItem?.confidence || 0`,
`explanation: analysisItem?.explanation || 'No explanation provided'`. -/
def scoreCandidate (resp : Option (List AnalysisItem)) (pos : Nat) (result : SearchResult) :
    ScoredResult :=
  let analysisItem := findAnalysisItem resp ((pos : Int) + 1)
  { result with
    confidence := jsNumOr (analysisItem.bind (fun r => r.confidence)) 0
    explanation := jsStrOr (analysisItem.bind (fun r => r.explanation)) "No explanation provided" }

/-- The indexed map of `analyzeRelevance` over the capped candidate list, with
`pos` the 0-based position of the head of the list. -/
def scoreCandidates (resp : Option (List AnalysisItem)) : Nat → List SearchResult → List ScoredResult
  | _, [] => []
  | pos, r :: rs => scoreCandidate resp pos r :: scoreCandidates resp (pos + 1) rs

/-- Comparator of `scoredResults.sort((a, b) => b.confidence - a.confidence)`:
`a` may precede `b` exactly when `b.confidence ≤ a.confidence`.  JavaScript array
sort is stable, as is `List.mergeSort`, and a stable sort for a fixed total
preorder has a unique output, so the embedding agrees with the source. -/
def confDesc (a b : ScoredResult) : Bool := b.confidence ≤ a.confidence

/-- `analyzeRelevance` (`src/lib/ai/openai.ts`), instrumented with the number of
scoring-provider calls the run makes (second component): zero on the empty-input
early return, one otherwise.  `provider` is the outcome the single awaited
provider call would have. -/
def analyzeRelevanceRun (originalText : String) (searchResults : List SearchResult)
    (provider : ScoreProviderOutcome) : List ScoredResult × Nat :=
  if searchResults.length = 0 then ([], 0)
  else
    let resultsToAnalyze := searchResults.take 10
    match provider with
    | .ok resp => ((scoreCandidates resp 0 resultsToAnalyze).mergeSort confDesc, 1)
    | .error _ =>
        (resultsToAnalyze.map (fun result =>
          { result with
            confidence := 50
            explanation := "AI analysis unavailable, showing search result" }), 1)

/-- The list returned by `analyzeRelevance`. -/
def analyzeRelevance (originalText : String) (searchResults : List SearchResult)
    (provider : ScoreProviderOutcome) : List ScoredResult :=
  (analyzeRelevanceRun originalText searchResults provider).1

/-- `getTopResults` (`src/lib/ai/openai.ts`):
`scoredResults.slice(0, topN).filter((result) => result.confidence > 0)`. -/
def getTopResults (scoredResults : List ScoredResult) (topN : Nat) : List ScoredResult :=
  (scoredResults.take topN).filter (fun result => decide (0 < result.confidence))

/-- Outcome of one page call inside the `for` loop of `searchGoogle`
(`src/lib/search/google.ts`): the `fetch` or body parsing throwing, a non-ok HTTP
response with its status code, or an ok response whose optional `items` field is
given. -/
inductive PageOutcome where
  | fetchError
  | httpError (status : Nat)
  | success (items : Option (List SearchResult))
deriving DecidableEq

/-- A page provider: the outcome the page call of loop iteration `i` would have.
The request parameters of iteration `i` (`q`, `num`, `start`) are functions of the
query, `numResults` and `i`, so the abstraction loses nothing. -/
abbrev PageProvider := Nat → PageOutcome

/-- Error propagated out of `searchGoogle` (only ever from the first iteration):
either the caught exception of a failed fetch/parse, or the error thrown for a
non-ok HTTP response, carrying its status. -/
inductive SearchError where
  | fetchError
  | httpError (status : Nat)
deriving DecidableEq

/-- The page call of iteration `i` fails (the `fetch` throws or the response is
non-ok): inside the loop of `searchGoogle` every such outcome either throws or is
rethrown into the surrounding `catch`. -/
def pageFails : PageOutcome → Bool
  | .success _ => false
  | .fetchError => true
  | .httpError _ => true

/-- The page call of iteration `i` succeeds but carries no items (`data.items`
missing or empty), which makes the loop `break`. -/
def pageEmpty : PageOutcome → Bool
  | .success none => true
  | .success (some items) => items.isEmpty
  | .fetchError => false
  | .httpError _ => false

/-- The `for` loop of `searchGoogle`: `i` is the loop counter, `allResults` the
accumulator, and `fuel` the number of loop-bound iterations left
(`numRequests - i`), so the guard `i < numRequests` is `0 < fuel`.  The second
component counts the page calls made.  Branches mirror the source: an iteration
whose response is ok with nonempty `items` pushes them and continues; ok with no
items breaks; a non-ok status of 400 past the first iteration breaks; every other
failure throws, and the surrounding `catch` rethrows it on the first iteration
and breaks otherwise. -/
def searchGoogleLoop (provider : PageProvider) (numResults : Nat) :
    Nat → Nat → List SearchResult → Except SearchError (List SearchResult) × Nat
  | 0, _, allResults => (.ok allResults, 0)
  | fuel + 1, i, allResults =>
    if allResults.length < numResults then
      match provider i with
      | .success (some items) =>
          if 0 < items.length then
            let r := searchGoogleLoop provider numResults fuel (i + 1) (allResults ++ items)
            (r.1, r.2 + 1)
          else (.ok allResults, 1)
      | .success none => (.ok allResults, 1)
      | .httpError status =>
          if status = 400 ∧ 0 < i then (.ok allResults, 1)
          else if i = 0 then (.error (.httpError status), 1)
          else (.ok allResults, 1)
      | .fetchError =>
          if i = 0 then (.error .fetchError, 1) else (.ok allResults, 1)
    else (.ok allResults, 0)

/-- `numRequests = Math.ceil(numResults / 10)` in `searchGoogle`. -/
def numRequests (numResults : Nat) : Nat := (numResults + 9) / 10

/-- `searchGoogle` (`src/lib/search/google.ts`): pages through the provider
starting at iteration 0 with an empty accumulator and finally truncates with
`allResults.slice(0, numResults)`. -/
def searchGoogle (provider : PageProvider) (query : String) (numResults : Nat) :
    Except SearchError (List SearchResult) :=
  (searchGoogleLoop provider numResults (numRequests numResults) 0 []).1.map
    (fun allResults => allResults.take numResults)

/-- Number of page calls a `searchGoogle` run makes. -/
def searchGoogleCalls (provider : PageProvider) (query : String) (numResults : Nat) : Nat :=
  (searchGoogleLoop provider numResults (numRequests numResults) 0 []).2

/-- The inner `for (const result of results)` loop of `searchMultiple`
(the multi-query search-client variant of the repository): push each result whose
`link` is not in `seenLinks`, recording newly seen links. -/
def addUnseen : List SearchResult → List SearchResult → List String → List SearchResult × List String
  | [], allResults, seenLinks => (allResults, seenLinks)
  | result :: rest, allResults, seenLinks =>
    if result.link ∈ seenLinks then addUnseen rest allResults seenLinks
    else addUnseen rest (allResults ++ [result]) (result.link :: seenLinks)

/-- The query loop of `searchMultiple`: a `searchGoogle` call that fails is
logged and skipped, a successful one has its results merged through
`addUnseen`. -/
def searchMultipleLoop (provider : String → PageProvider) (resultsPerQuery : Nat) :
    List String → List SearchResult → List String → List SearchResult
  | [], allResults, _ => allResults
  | query :: rest, allResults, seenLinks =>
    match searchGoogle (provider query) query resultsPerQuery with
    | .error _ => searchMultipleLoop provider resultsPerQuery rest allResults seenLinks
    | .ok results =>
        let r := addUnseen results allResults seenLinks
        searchMultipleLoop provider resultsPerQuery rest r.1 r.2

/-- `searchMultiple`: merges per-query results in query order and dedups by
`link`.  Its body catches every per-query error, so as an async function it
always resolves, which the embedding records as always returning `Except.ok`. -/
def searchMultiple (provider : String → PageProvider) (queries : List String)
    (resultsPerQuery : Nat) : Except SearchError (List SearchResult) :=
  .ok (searchMultipleLoop provider resultsPerQuery queries [] [])

/-- The stream of results the body of `searchMultiple` iterates over: the
concatenation of per-query `searchGoogle` results in query order, with failed
queries contributing nothing. -/
def searchMultipleStream (provider : String → PageProvider) (resultsPerQuery : Nat) :
    List String → List SearchResult
  | [] => []
  | query :: rest =>
    (match searchGoogle (provider query) query resultsPerQuery with
     | .ok results => results
     | .error _ => []) ++ searchMultipleStream provider resultsPerQuery rest

/-- First-occurrence deduplication by `link` relative to an initial seen set:
the first result carrying a given link is kept, all later results with that link
are dropped. -/
def dedupFirstByLink : List SearchResult → List String → List SearchResult
  | [], _ => []
  | result :: rest, seenLinks =>
    if result.link ∈ seenLinks then dedupFirstByLink rest seenLinks
    else result :: dedupFirstByLink rest (result.link :: seenLinks)

/-- Characters of the five literal prefixes recognized by the two regexes of
`isTelegramUrl`: `https?` with optional `www.` before `t.me/`, or a bare
`t.me/`. -/
def tmePrefixes : List (List Char) :=
  [("https://t.me/").data, ("https://www.t.me/").data,
   ("http://t.me/").data, ("http://www.t.me/").data,
   ("t.me/").data]

/-- A JavaScript line terminator: LF, CR, U+2028 or U+2029.  A regex `.` without
the `s` flag matches any character except these four. -/
def jsLineTerminator (c : Char) : Bool :=
  c == '\n' || c == '\r' || c == '\u2028' || c == '\u2029'

/-- Matching of `^<pfx>.+` for a literal prefix `pfx` against the characters of
the input: the input starts with `pfx` and at least one character follows that is
not a line terminator (which `.` does not match). -/
def regexPrefixDot : List Char → List Char → Bool
  | [], [] => false
  | [], c :: _ => !jsLineTerminator c
  | _ :: _, [] => false
  | p :: ps, c :: cs => p == c && regexPrefixDot ps cs

/-- `isTelegramUrl` (`src/lib/text/extractor.ts`). -/
def isTelegramUrl (text : String) : Bool :=
  tmePrefixes.any (fun pfx => regexPrefixDot pfx text.data)

/-- The only field of `TelegramMessage` whose value `extractText` reads (the
forwarded-message branch of the source has an empty body). -/
structure TelegramMessage where
  caption : Option String
deriving DecidableEq

/-- JavaScript truthiness of an optional string: absence and `""` are falsy. -/
def strTruthy (s : Option String) : Bool :=
  match s with
  | some v => v != ""
  | none => false

/-- The two exceptions `extractText` throws. -/
inductive ExtractError where
  | noTextOrMessage
  | noTextFound
deriving DecidableEq

/-- `extractText` (`src/lib/text/extractor.ts`).  `urlExtract` models the
outcome `extractTextFromTelegramUrl` would have; when it fails the original text
is returned.  The forwarded-message branch of the source does nothing and is
omitted. -/
def extractText (messageText : Option String) (message : Option TelegramMessage)
    (urlExtract : String → Except Unit String) : Except ExtractError String :=
  if !strTruthy messageText && message.isNone then .error .noTextOrMessage
  else
    let messageText :=
      if !strTruthy messageText && strTruthy (message.bind TelegramMessage.caption) then
        message.bind TelegramMessage.caption
      else messageText
    match messageText with
    | none => .error .noTextFound
    | some text =>
        if text = "" then .error .noTextFound
        else if isTelegramUrl text then
          match urlExtract text with
          | .ok extracted => .ok extracted
          | .error _ => .ok text
        else .ok text

/-- A character JavaScript `String.prototype.trim` removes: WhiteSpace (space,
tab, vertical tab, form feed, no-break space, byte-order mark, and the Zs space
separators U+1680, U+2000 through U+200A, U+202F, U+205F, U+3000) or a
LineTerminator (LF, CR, U+2028, U+2029). -/
def jsWhitespace (c : Char) : Bool :=
  c == ' ' || c == '\t' || c == '\n' || c == '\r' ||
  c == '\x0b' || c == '\x0c' || c == '\u00A0' || c == '\u1680' ||
  ('\u2000' ≤ c && c ≤ '\u200A') || c == '\u2028' || c == '\u2029' ||
  c == '\u202F' || c == '\u205F' || c == '\u3000' || c == '\uFEFF'

/-- JavaScript `s.trim()`: remove leading and trailing whitespace. -/
def jsTrim (s : String) : String :=
  ⟨((s.data.dropWhile jsWhitespace).reverse.dropWhile jsWhitespace).reverse⟩

/-- `validateInput` (`src/lib/text/extractor.ts`): `text.trim().length > 0`. -/
def validateInput (text : String) : Bool :=
  decide (0 < (jsTrim text).length)

/-- Concrete search result used by witnesses and counterexamples. -/
def sr1 : SearchResult :=
  ⟨"title one", "https://a.example/1", "snippet one", "a.example"⟩

/-- A second concrete search result with a distinct link. -/
def sr2 : SearchResult :=
  ⟨"title two", "https://a.example/2", "snippet two", "a.example"⟩

/-- A scored list sorted in descending order of confidence. -/
def sortedDescByConfidence (l : List ScoredResult) : Prop :=
  l.Pairwise (fun a b => b.confidence ≤ a.confidence)

theorem scoreCandidates_length (resp : Option (List AnalysisItem)) :
    ∀ pos rs, (scoreCandidates resp pos rs).length = rs.length := by
  intro pos rs
  induction rs generalizing pos with
  | nil => rfl
  | cons r rs ih => simp [scoreCandidates, ih]

theorem scoreCandidate_toSearchResult (resp : Option (List AnalysisItem)) (pos : Nat)
    (result : SearchResult) : (scoreCandidate resp pos result).toSearchResult = result := rfl

theorem scoreCandidates_mem_toSearchResult (resp : Option (List AnalysisItem)) :
    ∀ pos rs r, r ∈ scoreCandidates resp pos rs → r.toSearchResult ∈ rs := by
  intro pos rs
  induction rs generalizing pos with
  | nil => intro r h; cases h
  | cons x xs ih =>
    intro r h
    simp only [scoreCandidates] at h
    rcases List.mem_cons.mp h with rfl | h
    · exact List.mem_cons_self _ _
    · exact List.mem_cons_of_mem _ (ih _ _ h)

theorem scoreCandidate_mem_scoreCandidates (resp : Option (List AnalysisItem)) :
    ∀ rs pos i (hi : i < rs.length),
      scoreCandidate resp (pos + i) (rs.get ⟨i, hi⟩) ∈ scoreCandidates resp pos rs := by
  intro rs
  induction rs with
  | nil => intro pos i hi; cases hi
  | cons x xs ih =>
    intro pos i hi
    cases i with
    | zero => exact List.mem_cons_self _ _
    | succ j =>
      have := ih (pos + 1) j (Nat.lt_of_succ_lt_succ hi)
      rw [show pos + (j + 1) = pos + 1 + j by omega]
      exact List.mem_cons_of_mem _ this

/-- C10: applied to an empty candidate list, `analyzeRelevance` returns the empty
list immediately and makes no scoring-provider call at all, whatever outcome the
provider would have had. -/
theorem analyzeRelevance_empty (originalText : String) (provider : ScoreProviderOutcome) :
    analyzeRelevanceRun originalText [] provider = ([], 0) ∧
    analyzeRelevance originalText [] provider = [] :=
  ⟨rfl, rfl⟩

/-- C1: when the scoring-provider call fails, `analyzeRelevance` does not
propagate an error: for a non-empty candidate list it returns exactly the first
`min 10 candidates.length` candidates in candidate order, each with confidence 50
and the generic explanation of the fallback path. -/
theorem analyzeRelevance_provider_failure (originalText : String)
    (searchResults : List SearchResult) (e : Unit) (h : searchResults ≠ []) :
    analyzeRelevance originalText searchResults (.error e) =
      (searchResults.take 10).map (fun result =>
        { result with
          confidence := 50
          explanation := "AI analysis unavailable, showing search result" }) ∧
    (analyzeRelevance originalText searchResults (.error e)).length =
      min 10 searchResults.length ∧
    ∀ r ∈ analyzeRelevance originalText searchResults (.error e), r.confidence = 50 := by
  have hlen : ¬ searchResults.length = 0 := by
    simpa [List.length_eq_zero] using h
  have h1 : analyzeRelevance originalText searchResults (.error e) =
      (searchResults.take 10).map (fun result =>
        { result with
          confidence := 50
          explanation := "AI analysis unavailable, showing search result" }) := by
    simp [analyzeRelevance, analyzeRelevanceRun, hlen]
  refine ⟨h1, ?_, ?_⟩
  · rw [h1]
    simp [List.length_take]
  · intro r hr
    rw [h1] at hr
    rcases List.mem_map.mp hr with ⟨x, _, rfl⟩
    rfl

/-- Witness for C1 at a concrete two-candidate list and a failing provider. -/
theorem analyzeRelevance_provider_failure_witness :
    analyzeRelevance "original" [sr1, sr2] (.error ()) =
      ([sr1, sr2].take 10).map (fun result =>
        { result with
          confidence := 50
          explanation := "AI analysis unavailable, showing search result" }) ∧
    (analyzeRelevance "original" [sr1, sr2] (.error ())).length =
      min 10 ([sr1, sr2] : List SearchResult).length ∧
    ∀ r ∈ analyzeRelevance "original" [sr1, sr2] (.error ()), r.confidence = 50 :=
  analyzeRelevance_provider_failure "original" [sr1, sr2] () (by decide)

/-- C5: `getTopResults` is exactly the first `topN` entries of its input with the
entries of confidence ≤ 0 removed; no member of the output has confidence ≤ 0,
and the function is total, so an empty output is an ordinary value, not an
error. -/
theorem getTopResults_take_filter (scoredResults : List ScoredResult) (topN : Nat) :
    getTopResults scoredResults topN =
      (scoredResults.take topN).filter (fun result => decide (¬ result.confidence ≤ 0)) ∧
    ∀ result ∈ getTopResults scoredResults topN, ¬ result.confidence ≤ 0 := by
  constructor
  · simp only [getTopResults]
    congr 1
    funext r
    simp [Int.not_le]
  · intro r hr
    have := (List.mem_filter.mp hr).2
    simp only [decide_eq_true_eq] at this
    omega

/-- C4 counterexample: `getTopResults` does not sort, so on an input that is not
already sorted descending by confidence its output is not sorted descending. -/
theorem getTopResults_unsorted_cex :
    getTopResults
      [{ sr1 with confidence := 1, explanation := "low" },
       { sr2 with confidence := 2, explanation := "high" }] 2 =
      [{ sr1 with confidence := 1, explanation := "low" },
       { sr2 with confidence := 2, explanation := "high" }] ∧
    ¬ sortedDescByConfidence
      (getTopResults
        [{ sr1 with confidence := 1, explanation := "low" },
         { sr2 with confidence := 2, explanation := "high" }] 2) := by
  refine ⟨rfl, fun h => ?_⟩
  have h' : List.Pairwise (fun a b : ScoredResult => b.confidence ≤ a.confidence)
      [{ sr1 with confidence := 1, explanation := "low" },
       { sr2 with confidence := 2, explanation := "high" }] := h
  have h2 := (List.pairwise_cons.mp h').1 _ (List.mem_singleton.mpr rfl)
  exact absurd h2 (by decide)

/-- C4 (amended): when the input is sorted descending by confidence — as the
already-sorted output of the scorer is — `getTopResults` preserves that order and
its output contains no entry with confidence ≤ 0. -/
theorem getTopResults_sorted_of_sorted (scoredResults : List ScoredResult) (topN : Nat)
    (h : sortedDescByConfidence scoredResults) :
    sortedDescByConfidence (getTopResults scoredResults topN) ∧
    ∀ result ∈ getTopResults scoredResults topN, ¬ result.confidence ≤ 0 := by
  constructor
  · exact List.Pairwise.sublist
      ((List.filter_sublist _).trans (List.take_sublist _ _)) h
  · intro r hr
    have := (List.mem_filter.mp hr).2
    simp only [decide_eq_true_eq] at this
    omega

/-- Witness for the amended C4 at a concrete sorted list. -/
theorem getTopResults_sorted_of_sorted_witness :
    sortedDescByConfidence
      (getTopResults
        [{ sr1 with confidence := 2, explanation := "high" },
         { sr2 with confidence := 1, explanation := "low" }] 2) ∧
    ∀ result ∈ getTopResults
        [{ sr1 with confidence := 2, explanation := "high" },
         { sr2 with confidence := 1, explanation := "low" }] 2,
      ¬ result.confidence ≤ 0 :=
  getTopResults_sorted_of_sorted _ 2 (by
    constructor
    · intro b hb
      rcases List.mem_singleton.mp hb with rfl
      decide
    · exact List.pairwise_singleton _ _)

/-- C7 counterexample: with one candidate and a structured response carrying no
entry for index 1, the candidate is kept with confidence 0, but its explanation
is the source's capitalized string, not the claimed "no explanation provided". -/
theorem analyzeRelevance_missing_index_cex :
    analyzeRelevance "original" [sr1] (.ok (some [])) =
      [{ sr1 with confidence := 0, explanation := "No explanation provided" }] ∧
    ∀ r ∈ analyzeRelevance "original" [sr1] (.ok (some [])),
      r.explanation ≠ "no explanation provided" := by
  have h1 : analyzeRelevance "original" [sr1] (.ok (some [])) =
      [{ sr1 with confidence := 0, explanation := "No explanation provided" }] := by
    simp [analyzeRelevance, analyzeRelevanceRun, scoreCandidates, scoreCandidate,
      findAnalysisItem, jsNumOr, jsStrOr]
  refine ⟨h1, ?_⟩
  intro r hr
  rw [h1] at hr
  rcases List.mem_singleton.mp hr with rfl
  decide

/-- C7 (amended): `analyzeRelevance` on a structured response considers only the
first 10 candidates and returns exactly `min 10 candidates.length` entries; every
considered candidate whose 1-based index is missing from the response is kept in
the output with confidence 0 and the explanation "No explanation provided"
(capitalized as in the source). -/
theorem analyzeRelevance_missing_index (originalText : String)
    (searchResults : List SearchResult) (resp : Option (List AnalysisItem)) :
    (analyzeRelevance originalText searchResults (.ok resp)).length =
      min 10 searchResults.length ∧
    (∀ r ∈ analyzeRelevance originalText searchResults (.ok resp),
      r.toSearchResult ∈ searchResults.take 10) ∧
    ∀ i (hi : i < (searchResults.take 10).length),
      findAnalysisItem resp ((i : Int) + 1) = none →
      { (searchResults.take 10).get ⟨i, hi⟩ with
        confidence := 0
        explanation := "No explanation provided" } ∈
        analyzeRelevance originalText searchResults (.ok resp) := by
  by_cases hempty : searchResults.length = 0
  · rcases List.length_eq_zero.mp hempty with rfl
    refine ⟨rfl, ?_, ?_⟩
    · intro r hr; cases hr
    · intro i hi; cases hi
  · have heval : analyzeRelevance originalText searchResults (.ok resp) =
        (scoreCandidates resp 0 (searchResults.take 10)).mergeSort confDesc := by
      simp [analyzeRelevance, analyzeRelevanceRun, hempty]
    refine ⟨?_, ?_, ?_⟩
    · rw [heval, List.length_mergeSort, scoreCandidates_length, List.length_take]
    · intro r hr
      rw [heval] at hr
      exact scoreCandidates_mem_toSearchResult resp 0 _ r (List.mem_mergeSort.mp hr)
    · intro i hi hnone
      rw [heval]
      refine List.mem_mergeSort.mpr ?_
      have hmem := scoreCandidate_mem_scoreCandidates resp (searchResults.take 10) 0 i hi
      have hval : scoreCandidate resp (0 + i) ((searchResults.take 10).get ⟨i, hi⟩) =
          { (searchResults.take 10).get ⟨i, hi⟩ with
            confidence := 0
            explanation := "No explanation provided" } := by
        have : (0 : Nat) + i = i := Nat.zero_add i
        rw [this]
        simp [scoreCandidate, hnone, jsNumOr, jsStrOr]
      rwa [hval] at hmem

/-- Witness for the amended C7: one candidate, a response with an empty results
array, index 1 missing. -/
theorem analyzeRelevance_missing_index_witness :
    { (([sr1] : List SearchResult).take 10).get ⟨0, by decide⟩ with
      confidence := 0
      explanation := "No explanation provided" } ∈
      analyzeRelevance "original" [sr1] (.ok (some [])) :=
  (analyzeRelevance_missing_index "original" [sr1] (some [])).2.2 0 (by decide) (by decide)

/-- C3 counterexample: the input consisting of the letter a surrounded by spaces
is not a Telegram link and has non-empty trim, but `extractText` returns it
verbatim, not trimmed. -/
theorem extractText_not_trimmed_cex :
    isTelegramUrl " a " = false ∧
    jsTrim " a " ≠ "" ∧
    extractText (some " a ") none (fun _ => .error ()) = .ok " a " ∧
    (" a " : String) ≠ jsTrim " a " := by
  refine ⟨rfl, by decide, rfl, by decide⟩

/-- C3 (amended): for a non-link input string with non-empty trim, `extractText`
returns exactly the input string unchanged (in particular untrimmed, so the
output equals `trim(s)` only when `s` carries no surrounding whitespace), and the
output is non-empty after trimming. -/
theorem extractText_nonlink (s : String) (urlExtract : String → Except Unit String)
    (hs : jsTrim s ≠ "") (hl : isTelegramUrl s = false) :
    extractText (some s) none urlExtract = .ok s ∧
    ∀ out, extractText (some s) none urlExtract = .ok out → jsTrim out ≠ "" := by
  have hne : s ≠ "" := by
    intro h
    exact hs (by rw [h]; rfl)
  have h1 : extractText (some s) none urlExtract = .ok s := by
    simp [extractText, strTruthy, hne, hl]
  refine ⟨h1, ?_⟩
  intro out hout
  rw [h1] at hout
  cases hout
  exact hs

/-- Witness for the amended C3 at the concrete non-link input. -/
theorem extractText_nonlink_witness :
    extractText (some " a ") none (fun _ => Except.error ()) = .ok " a " ∧
    ∀ out, extractText (some " a ") none (fun _ => Except.error ()) = .ok out →
      jsTrim out ≠ "" :=
  extractText_nonlink " a " (fun _ => Except.error ()) (by decide) (by decide)

theorem searchGoogleLoop_calls_le (provider : PageProvider) (numResults : Nat) :
    ∀ fuel i allResults, (searchGoogleLoop provider numResults fuel i allResults).2 ≤ fuel := by
  intro fuel
  induction fuel with
  | zero => intro i acc; exact Nat.le_refl 0
  | succ n ih =>
    intro i acc
    by_cases hg : acc.length < numResults
    · cases h : provider i with
      | success items =>
        cases items with
        | none => simp [searchGoogleLoop, hg, h]
        | some l =>
          by_cases hl : 0 < l.length
          · simp only [searchGoogleLoop, h, if_pos hg, if_pos hl]
            exact Nat.succ_le_succ (ih (i + 1) (acc ++ l))
          · simp [searchGoogleLoop, hg, h, hl]
      | httpError status =>
        by_cases hb : status = 400 ∧ 0 < i
        · simp [searchGoogleLoop, hg, h, hb]
        · rcases Nat.eq_zero_or_pos i with rfl | hip
          · simp [searchGoogleLoop, hg, h, hb]
          · simp [searchGoogleLoop, hg, h, hb, Nat.pos_iff_ne_zero.mp hip]
      | fetchError =>
        rcases Nat.eq_zero_or_pos i with rfl | hip
        · simp [searchGoogleLoop, hg, h]
        · simp [searchGoogleLoop, hg, h, Nat.pos_iff_ne_zero.mp hip]
    · simp [searchGoogleLoop, hg]

theorem searchGoogleLoop_ok_of_pos (provider : PageProvider) (numResults : Nat) :
    ∀ fuel i allResults, 0 < i →
      ∃ l, (searchGoogleLoop provider numResults fuel i allResults).1 = .ok l := by
  intro fuel
  induction fuel with
  | zero => intro i acc _; exact ⟨acc, rfl⟩
  | succ n ih =>
    intro i acc hi
    have hz : ¬ i = 0 := Nat.pos_iff_ne_zero.mp hi
    by_cases hg : acc.length < numResults
    · cases h : provider i with
      | success items =>
        cases items with
        | none => exact ⟨acc, by simp [searchGoogleLoop, hg, h]⟩
        | some l =>
          by_cases hl : 0 < l.length
          · rcases ih (i + 1) (acc ++ l) (Nat.succ_pos i) with ⟨l', hl'⟩
            refine ⟨l', ?_⟩
            simp only [searchGoogleLoop, h, if_pos hg, if_pos hl]
            exact hl'
          · exact ⟨acc, by simp [searchGoogleLoop, hg, h, hl]⟩
      | httpError status =>
        by_cases hb : status = 400 ∧ 0 < i
        · exact ⟨acc, by simp [searchGoogleLoop, hg, h, hb]⟩
        · exact ⟨acc, by simp [searchGoogleLoop, hg, h, hb, hz]⟩
      | fetchError => exact ⟨acc, by simp [searchGoogleLoop, hg, h, hz]⟩
    · exact ⟨acc, by simp [searchGoogleLoop, hg]⟩

theorem searchGoogleLoop_first_fail (provider : PageProvider) (numResults m : Nat)
    (hk : 0 < numResults) (hfail : pageFails (provider 0) = true) :
    ∃ err, (searchGoogleLoop provider numResults (m + 1) 0 []).1 = .error err := by
  cases h : provider 0 with
  | success items => simp [h, pageFails] at hfail
  | httpError status =>
    exact ⟨.httpError status, by simp [searchGoogleLoop, h, hk]⟩
  | fetchError =>
    exact ⟨.fetchError, by simp [searchGoogleLoop, h, hk]⟩

theorem searchGoogleLoop_first_ok (provider : PageProvider) (numResults m : Nat)
    (hok : pageFails (provider 0) = false) :
    ∃ l, (searchGoogleLoop provider numResults (m + 1) 0 []).1 = .ok l := by
  by_cases hg : (0 : Nat) < numResults
  · cases h : provider 0 with
    | success items =>
      cases items with
      | none => exact ⟨[], by simp [searchGoogleLoop, h, hg]⟩
      | some l =>
        by_cases hl : 0 < l.length
        · rcases searchGoogleLoop_ok_of_pos provider numResults m 1 ([] ++ l)
            (Nat.succ_pos 0) with ⟨l', hl'⟩
          refine ⟨l', ?_⟩
          simp only [searchGoogleLoop, List.length_nil, h, if_pos hg, if_pos hl]
          exact hl'
        · exact ⟨[], by simp [searchGoogleLoop, h, hg, hl]⟩
    | httpError status => simp [h, pageFails] at hok
    | fetchError => simp [h, pageFails] at hok
  · exact ⟨[], by simp [searchGoogleLoop, hg]⟩

/-- C2: `searchGoogle` propagates a provider failure as an error exactly when it
makes a first page call and that first page call fails; past the first iteration,
a failing or empty page makes the loop stop and return the accumulator with no
error. -/
theorem searchGoogle_error_policy (provider : PageProvider) (query : String)
    (numResults : Nat) :
    ((∃ err, searchGoogle provider query numResults = .error err) ↔
      0 < numResults ∧ pageFails (provider 0) = true) ∧
    ∀ fuel i allResults, 0 < i →
      pageFails (provider i) = true ∨ pageEmpty (provider i) = true →
      (searchGoogleLoop provider numResults fuel i allResults).1 = .ok allResults := by
  constructor
  · constructor
    · rintro ⟨err, herr⟩
      have hloop : (searchGoogleLoop provider numResults (numRequests numResults) 0 []).1 =
          .error err := by
        unfold searchGoogle at herr
        cases hres : (searchGoogleLoop provider numResults (numRequests numResults) 0 []).1 with
        | error e => rw [hres] at herr; simpa [Except.map] using herr
        | ok acc => rw [hres] at herr; simp [Except.map] at herr
      have hk : 0 < numResults := by
        by_contra hk0
        have h0 : numResults = 0 := by omega
        subst h0
        simp [numRequests, searchGoogleLoop] at hloop
      refine ⟨hk, ?_⟩
      have hm : numRequests numResults = (numRequests numResults - 1) + 1 := by
        unfold numRequests
        omega
      by_contra hfail
      have hfalse : pageFails (provider 0) = false := by
        cases hpf : pageFails (provider 0)
        · rfl
        · exact absurd hpf hfail
      rcases searchGoogleLoop_first_ok provider numResults (numRequests numResults - 1)
        hfalse with ⟨l, hl⟩
      rw [hm, hl] at hloop
      cases hloop
    · rintro ⟨hk, hfail⟩
      have hm : numRequests numResults = (numRequests numResults - 1) + 1 := by
        unfold numRequests
        omega
      rcases searchGoogleLoop_first_fail provider numResults (numRequests numResults - 1)
        hk hfail with ⟨err, herr⟩
      refine ⟨err, ?_⟩
      unfold searchGoogle
      rw [hm, herr]
      rfl
  · intro fuel i acc hi hstop
    have hz : ¬ i = 0 := Nat.pos_iff_ne_zero.mp hi
    cases fuel with
    | zero => rfl
    | succ n =>
      by_cases hg : acc.length < numResults
      · cases h : provider i with
        | success items =>
          cases items with
          | none => simp [searchGoogleLoop, hg, h]
          | some l =>
            have hl : l = [] := by
              simp [h, pageFails, pageEmpty] at hstop
              exact hstop
            subst hl
            simp [searchGoogleLoop, hg, h]
        | httpError status =>
          by_cases hb : status = 400 ∧ 0 < i
          · simp [searchGoogleLoop, hg, h, hb]
          · simp [searchGoogleLoop, hg, h, hb, hz]
        | fetchError => simp [searchGoogleLoop, hg, h, hz]
      · simp [searchGoogleLoop, hg]

/-- Witness for C2: with an always-failing provider, a stop at iteration 1
returns the accumulator without error. -/
theorem searchGoogle_error_policy_witness :
    (searchGoogleLoop (fun _ => PageOutcome.fetchError) 5 1 1 []).1 = .ok [] :=
  (searchGoogle_error_policy (fun _ => PageOutcome.fetchError) "query" 5).2 1 1 []
    (by decide) (Or.inl (by decide))

/-- C6: for a positive desired count, `searchGoogle` returns at most that many
results — truncating whatever the provider returned — and makes at most
⌈numResults/10⌉ page calls. -/
theorem searchGoogle_bounds (provider : PageProvider) (query : String) (numResults : Nat)
    (hk : 0 < numResults) :
    (∀ l, searchGoogle provider query numResults = .ok l → l.length ≤ numResults) ∧
    searchGoogleCalls provider query numResults ≤ (numResults + 9) / 10 := by
  constructor
  · intro l hl
    unfold searchGoogle at hl
    cases hres : (searchGoogleLoop provider numResults (numRequests numResults) 0 []).1 with
    | error e => rw [hres] at hl; simp [Except.map] at hl
    | ok acc =>
      rw [hres] at hl
      simp only [Except.map, Except.ok.injEq] at hl
      rw [← hl]
      exact List.length_take_le _ _
  · exact searchGoogleLoop_calls_le provider numResults _ 0 []

/-- Witness for C6 at a concrete provider with no results and count 5. -/
theorem searchGoogle_bounds_witness :
    (∀ l, searchGoogle (fun _ => PageOutcome.success none) "query" 5 = .ok l →
      l.length ≤ 5) ∧
    searchGoogleCalls (fun _ => PageOutcome.success none) "query" 5 ≤ (5 + 9) / 10 :=
  searchGoogle_bounds (fun _ => PageOutcome.success none) "query" 5 (by decide)

/-- Provider for which every page call of every query fails. -/
def failingProvider : String → PageProvider := fun _ _ => PageOutcome.fetchError

/-- C8 counterexample: with one query whose every page call fails, every query of
the batch fails, yet `searchMultiple` resolves to a normal empty result, not a
failure. -/
theorem searchMultiple_all_fail_cex :
    searchGoogle (failingProvider "query") "query" 5 = .error .fetchError ∧
    searchMultiple failingProvider ["query"] 5 = .ok [] :=
  ⟨rfl, rfl⟩

/-- C8 (amended): `searchMultiple` continues past per-query failures — a failing
query is skipped and the loop proceeds with the rest — and it never fails, even
when every query fails: the whole operation always resolves with the merged
results collected so far (the empty list when nothing succeeded). -/
theorem searchMultiple_failure_policy (provider : String → PageProvider)
    (resultsPerQuery : Nat) :
    (∀ queries, ∃ l, searchMultiple provider queries resultsPerQuery = .ok l) ∧
    ∀ query rest allResults seenLinks err,
      searchGoogle (provider query) query resultsPerQuery = .error err →
      searchMultipleLoop provider resultsPerQuery (query :: rest) allResults seenLinks =
        searchMultipleLoop provider resultsPerQuery rest allResults seenLinks := by
  refine ⟨fun queries => ⟨_, rfl⟩, ?_⟩
  intro query rest allResults seenLinks err h
  simp [searchMultipleLoop, h]

/-- Witness for the amended C8: a failing query is skipped by the loop. -/
theorem searchMultiple_failure_policy_witness :
    searchMultipleLoop failingProvider 5 ["query"] [] [] =
      searchMultipleLoop failingProvider 5 [] [] [] :=
  (searchMultiple_failure_policy failingProvider 5).2 "query" [] [] [] .fetchError rfl

theorem addUnseen_eq : ∀ (results allResults : List SearchResult) (seenLinks : List String),
    addUnseen results allResults seenLinks =
      (allResults ++ dedupFirstByLink results seenLinks,
       ((dedupFirstByLink results seenLinks).map (fun r => r.link)).reverse ++ seenLinks) := by
  intro results
  induction results with
  | nil => intro acc seen; simp [addUnseen, dedupFirstByLink]
  | cons r rest ih =>
    intro acc seen
    by_cases hmem : r.link ∈ seen
    · simp [addUnseen, dedupFirstByLink, hmem, ih]
    · simp only [addUnseen, dedupFirstByLink, if_neg hmem, ih]
      simp [Prod.ext_iff, List.append_assoc]

theorem dedupFirstByLink_append :
    ∀ (xs ys : List SearchResult) (seenLinks : List String),
    dedupFirstByLink (xs ++ ys) seenLinks =
      dedupFirstByLink xs seenLinks ++
        dedupFirstByLink ys
          (((dedupFirstByLink xs seenLinks).map (fun r => r.link)).reverse ++ seenLinks) := by
  intro xs
  induction xs with
  | nil => intro ys seen; simp [dedupFirstByLink]
  | cons x rest ih =>
    intro ys seen
    by_cases hmem : x.link ∈ seen
    · simp [dedupFirstByLink, hmem, ih]
    · simp only [List.cons_append, dedupFirstByLink, if_neg hmem, List.append_eq,
        ih ys (x.link :: seen)]
      simp [List.append_assoc]

theorem searchMultipleLoop_eq_dedup (provider : String → PageProvider)
    (resultsPerQuery : Nat) :
    ∀ (queries : List String) (allResults : List SearchResult) (seenLinks : List String),
    searchMultipleLoop provider resultsPerQuery queries allResults seenLinks =
      allResults ++
        dedupFirstByLink (searchMultipleStream provider resultsPerQuery queries) seenLinks := by
  intro queries
  induction queries with
  | nil => intro acc seen; simp [searchMultipleLoop, searchMultipleStream, dedupFirstByLink]
  | cons q rest ih =>
    intro acc seen
    cases h : searchGoogle (provider q) q resultsPerQuery with
    | error e =>
      simp only [searchMultipleLoop, searchMultipleStream, h, ih]
      simp [dedupFirstByLink]
    | ok results =>
      simp only [searchMultipleLoop, searchMultipleStream, h, addUnseen_eq, ih,
        dedupFirstByLink_append]
      simp [List.append_assoc]

theorem dedupFirstByLink_nodup :
    ∀ (results : List SearchResult) (seenLinks : List String),
    ((dedupFirstByLink results seenLinks).map (fun r => r.link)).Nodup ∧
    ∀ x ∈ (dedupFirstByLink results seenLinks).map (fun r => r.link), x ∉ seenLinks := by
  intro results
  induction results with
  | nil => intro seen; simp [dedupFirstByLink]
  | cons r rest ih =>
    intro seen
    by_cases hmem : r.link ∈ seen
    · simpa [dedupFirstByLink, hmem] using ih seen
    · have ihr := ih (r.link :: seen)
      simp only [dedupFirstByLink, if_neg hmem, List.map_cons, List.nodup_cons]
      refine ⟨⟨?_, ihr.1⟩, ?_⟩
      · intro hc
        exact (ihr.2 _ hc) (List.mem_cons_self _ _)
      · intro x hx
        rcases List.mem_cons.mp hx with rfl | hx
        · exact hmem
        · intro hxseen
          exact (ihr.2 _ hx) (List.mem_cons_of_mem _ hxseen)

/-- C9: the list `searchMultiple` resolves with is exactly the first-occurrence
deduplication by `link` of the stream of per-query results: the first result seen
with a given link is kept, every later result with the same link is dropped, and
the final list carries no two entries with equal `link`. -/
theorem searchMultiple_dedup (provider : String → PageProvider) (queries : List String)
    (resultsPerQuery : Nat) :
    searchMultiple provider queries resultsPerQuery =
      .ok (dedupFirstByLink (searchMultipleStream provider resultsPerQuery queries) []) ∧
    ((searchMultipleLoop provider resultsPerQuery queries [] []).map
      (fun r => r.link)).Nodup := by
  have h := searchMultipleLoop_eq_dedup provider resultsPerQuery queries [] []
  constructor
  · unfold searchMultiple
    rw [h]
    rfl
  · rw [h]
    simpa using (dedupFirstByLink_nodup
      (searchMultipleStream provider resultsPerQuery queries) []).1

end FindOrigin
